import Mathlib

/-!
Verification of the room-acoustics engine in `src/App.jsx`.

The JavaScript source computes with IEEE doubles and the transcendental
functions `Math.cos`, `Math.sqrt`, `Math.log10` and the constant `Math.PI`.
We embed the program shallowly over the rationals, abstracting those four
primitives into an `Ops` record: every definition below mirrors the source
line by line with `ops.cos` in place of `Math.cos`, and so on.  All structural
claims (filtering, sorting, search maximality, independence of inputs) are
proved for an arbitrary `Ops`, hence hold in particular for the real
interpretations of the primitives; concrete witnesses instantiate `Ops` with
computable rational functions.
-/

namespace RoomAcoustics

/-- Abstract numeric primitives standing in for `Math.cos`, `Math.sqrt`,
`Math.log10` and `Math.PI` of the source. -/
structure Ops where
  cos : ℚ → ℚ
  sqrt : ℚ → ℚ
  log10 : ℚ → ℚ
  pi : ℚ

/-- `const SPEED_OF_SOUND = 1130; // ft/s` -/
def SPEED_OF_SOUND : ℚ := 1130

/-- Room dimensions in feet (`room = {length, width, height}`). -/
structure Room where
  length : ℚ
  width : ℚ
  height : ℚ
deriving DecidableEq

/-- Wall openings in percent (`wallOpenings = {front, rear, left, right}`). -/
structure WallOpenings where
  front : ℚ
  rear : ℚ
  left : ℚ
  right : ℚ
deriving DecidableEq

/-- The mode classification strings `'axial' | 'tangential' | 'oblique'`. -/
inductive ModeType where
  | axial
  | tangential
  | oblique
deriving DecidableEq

/-- A room mode record `{n, m, l, freq, type, level}`. -/
structure Mode where
  n : ℕ
  m : ℕ
  l : ℕ
  freq : ℚ
  type : ModeType
  level : ℤ
deriving DecidableEq

/-- A point `{x, y, z}` (listener, speaker or subwoofer position). -/
structure Pos where
  x : ℚ
  y : ℚ
  z : ℚ
deriving DecidableEq

/-- `calcModeFreq(n, m, l, length, width, height)` from the source:
terms are included only for positive indices, a zero sum yields frequency 0,
otherwise `(SPEED_OF_SOUND / 2) * Math.sqrt(sum)`. -/
def calcModeFreq (ops : Ops) (n m l : ℕ) (length width height : ℚ) : ℚ :=
  let termL : ℚ := if 0 < n then ((n : ℚ) / length) ^ 2 else 0
  let termW : ℚ := if 0 < m then ((m : ℚ) / width) ^ 2 else 0
  let termH : ℚ := if 0 < l then ((l : ℚ) / height) ^ 2 else 0
  if termL + termW + termH = 0 then 0
  else (SPEED_OF_SOUND / 2) * ops.sqrt (termL + termW + termH)

/-- `getModeType(n, m, l)` from the source: counts the nonzero indices and
returns the type together with the nominal level. -/
def getModeType (n m l : ℕ) : ModeType × ℤ :=
  let nonZero := ([n, m, l].filter (fun x => decide (0 < x))).length
  if nonZero = 1 then (ModeType.axial, 0)
  else if nonZero = 2 then (ModeType.tangential, -3)
  else (ModeType.oblique, -6)

/-- `generateModes(length, width, height, maxFreq, maxOrder = 6)`: the triple
loop over `0..maxOrder`, skipping `(0,0,0)`, keeping `0 < freq ≤ maxFreq`,
then `.sort((a, b) => a.freq - b.freq)` (a stable ascending sort, embedded as
`mergeSort` on `freq ≤ freq`). -/
def generateModes (ops : Ops) (length width height maxFreq : ℚ) (maxOrder : ℕ) : List Mode :=
  let modes := (List.range (maxOrder + 1)).flatMap fun n =>
    (List.range (maxOrder + 1)).flatMap fun m =>
      (List.range (maxOrder + 1)).filterMap fun l =>
        if n = 0 ∧ m = 0 ∧ l = 0 then none
        else
          let freq := calcModeFreq ops n m l length width height
          if 0 < freq ∧ freq ≤ maxFreq then
            let tl := getModeType n m l
            some ⟨n, m, l, freq, tl.1, tl.2⟩
          else none
  modes.mergeSort fun a b => decide (a.freq ≤ b.freq)

/-- The three axis factors shared by the pressure evaluators: for each axis,
`cos(index·π·coord/dimension)` when the index is positive, else `1`. -/
def axisX (ops : Ops) (mode : Mode) (room : Room) (x : ℚ) : ℚ :=
  if 0 < mode.n then ops.cos ((mode.n : ℚ) * ops.pi * x / room.length) else 1

def axisY (ops : Ops) (mode : Mode) (room : Room) (y : ℚ) : ℚ :=
  if 0 < mode.m then ops.cos ((mode.m : ℚ) * ops.pi * y / room.width) else 1

def axisZ (ops : Ops) (mode : Mode) (room : Room) (z : ℚ) : ℚ :=
  if 0 < mode.l then ops.cos ((mode.l : ℚ) * ops.pi * z / room.height) else 1

/-- `calcPressureAtPosition(x, y, z, mode, room, wallOpenings)` from the
source: the rectified standing-wave product, a `modeStrength` accumulated
multiplicatively from the wall openings (width axis first, then length axis,
exactly as the two `if` statements in the source), and the pull toward the
neutral value `0.5`. -/
def calcPressureAtPosition (ops : Ops) (x y z : ℚ) (mode : Mode) (room : Room)
    (wallOpenings : WallOpenings) : ℚ :=
  let pX := axisX ops mode room x
  let pY := axisY ops mode room y
  let pZ := axisZ ops mode room z
  let rawPressure := |pX * pY * pZ|
  let ms0 : ℚ := 1
  let ms1 := if 0 < mode.m then
    ms0 * ((1 - wallOpenings.left / 100) * (1 - wallOpenings.right / 100)) else ms0
  let modeStrength := if 0 < mode.n then
    ms1 * ((1 - wallOpenings.front / 100) * (1 - wallOpenings.rear / 100)) else ms1
  1/2 + (rawPressure - 1/2) * modeStrength

/-- `calcPressureWithSign(pos, mode, room)` from the source: the same product
of axis factors without the absolute value. -/
def calcPressureWithSign (ops : Ops) (pos : Pos) (mode : Mode) (room : Room) : ℚ :=
  let pX := axisX ops mode room pos.x
  let pY := axisY ops mode room pos.y
  let pZ := axisZ ops mode room pos.z
  pX * pY * pZ

/-- The six boundary labels used by `calcSBIR`. -/
inductive Boundary where
  | frontWall
  | rearWall
  | leftWall
  | rightWall
  | floor
  | ceiling
deriving DecidableEq

/-- One entry of the list returned by `calcSBIR`. -/
structure SBIREntry where
  boundary : Boundary
  distance : ℚ
  freq : ℚ
deriving DecidableEq

/-- Distance from the speaker to each boundary, as listed in `calcSBIR`. -/
def boundaryDistance (speaker : Pos) (room : Room) : Boundary → ℚ
  | Boundary.frontWall => speaker.x
  | Boundary.rearWall => room.length - speaker.x
  | Boundary.leftWall => speaker.y
  | Boundary.rightWall => room.width - speaker.y
  | Boundary.floor => speaker.z
  | Boundary.ceiling => room.height - speaker.z

/-- `calcSBIR(speaker, room)` from the source: the six labelled distances,
filtered to `0.1 < d < 15`, mapped to `freq = SPEED_OF_SOUND / (2 d)`, and
sorted ascending by frequency. -/
def calcSBIR (speaker : Pos) (room : Room) : List SBIREntry :=
  let distances : List (Boundary × ℚ) :=
    [ (Boundary.frontWall, speaker.x),
      (Boundary.rearWall, room.length - speaker.x),
      (Boundary.leftWall, speaker.y),
      (Boundary.rightWall, room.width - speaker.y),
      (Boundary.floor, speaker.z),
      (Boundary.ceiling, room.height - speaker.z) ]
  (((distances.filter fun d => decide (1/10 < d.2) && decide (d.2 < 15)).map
    fun d => SBIREntry.mk d.1 d.2 (SPEED_OF_SOUND / (2 * d.2))).mergeSort
      fun a b => decide (a.freq ≤ b.freq))

/-- The swept frequencies of `calcPredictedFR`:
`for (let f = lo; f <= hi; f += 2) frequencies.push(f)`. -/
def sweepFreqs (lo hi : ℚ) : List ℚ :=
  if hi < lo then []
  else (List.range ((⌊(hi - lo) / 2⌋).toNat + 1)).map fun i => lo + 2 * (i : ℚ)

/-- One `{freq, dB, pressure}` triple of the predicted response. -/
structure FRPoint where
  freq : ℚ
  dB : ℚ
  pressure : ℚ
deriving DecidableEq

/-- The inline type weight of `calcPredictedFR`:
`mode.type === 'axial' ? 1.0 : mode.type === 'tangential' ? 0.5 : 0.25`. -/
def typeWeight : ModeType → ℚ
  | ModeType.axial => 1
  | ModeType.tangential => 1/2
  | ModeType.oblique => 1/4

/-- `calcPredictedFR(subPositions, modes, room, listener, freqRange)` from the
source: per swept frequency, filter modes to the modal bandwidth
`|mode.freq − f| < f/8`, accumulate
`netSubExcitation · lpCoupling · typeWeight` (`reduce`/`forEach` become left
folds), add the `0.5` baseline, and convert via `20 · log10 |total|`. -/
def calcPredictedFR (ops : Ops) (subPositions : List Pos) (modes : List Mode)
    (room : Room) (listener : Pos) (lo hi : ℚ) : List FRPoint :=
  (sweepFreqs lo hi).map fun freq =>
    let bandwidth := freq / 8
    let nearbyModes := modes.filter fun m => decide (|m.freq - freq| < bandwidth)
    let totalPressure := nearbyModes.foldl (fun acc mode =>
      let lpCoupling := calcPressureWithSign ops listener mode room
      let netSubExcitation := subPositions.foldl
        (fun sum sub => sum + calcPressureWithSign ops sub mode room) 0
      let tw := typeWeight mode.type
      acc + netSubExcitation * lpCoupling * tw) 0
    let total := totalPressure + 1/2
    let dB := 20 * ops.log10 |total|
    FRPoint.mk freq dB total

/-- `standardDeviation(arr)` from the source (with `Math.sqrt` abstracted). -/
def standardDeviation (ops : Ops) (arr : List ℚ) : ℚ :=
  let mean := arr.foldl (· + ·) 0 / (arr.length : ℚ)
  let variance := (arr.foldl (fun sum val => sum + (val - mean) ^ 2) 0) / (arr.length : ℚ)
  ops.sqrt variance

/-- `Math.max(...xs)` on a nonempty list (the only way the source calls it;
the empty case, unreachable here, is given the junk value 0). -/
def jsMax : List ℚ → ℚ
  | [] => 0
  | a :: rest => rest.foldl max a

/-- `Math.min(...xs)` on a nonempty list, as `jsMax`. -/
def jsMin : List ℚ → ℚ
  | [] => 0
  | a :: rest => rest.foldl min a

/-- One element of `scoreSubConfig`'s `modeDetails`. -/
structure ModeDetail where
  mode : Mode
  lpPressure : ℚ
  netExcitation : ℚ
  absExcitation : ℚ
  effectiveImpact : ℚ
  isCancelled : Bool
deriving DecidableEq

/-- The record returned by `scoreSubConfig`. -/
structure ScoreResult where
  overall : ℚ
  peakToPeak : ℚ
  stdDev : ℚ
  fr : List FRPoint
  modeDetails : List ModeDetail
deriving DecidableEq

/-- `scoreSubConfig(subPositions, modes, room, listener)` from the source:
predicted response over the default 20–120 Hz sweep, peak-to-peak and
standard deviation of the dB values, flatness score
`Math.max(0, 100 - peakToPeak * 3)`, and the per-mode details over the modes
with `freq <= 120`. -/
def scoreSubConfig (ops : Ops) (subPositions : List Pos) (modes : List Mode)
    (room : Room) (listener : Pos) : ScoreResult :=
  let fr := calcPredictedFR ops subPositions modes room listener 20 120
  let dBValues := fr.map fun r => r.dB
  let peakToPeak := jsMax dBValues - jsMin dBValues
  let stdDev := standardDeviation ops dBValues
  let flatnessScore := max 0 (100 - peakToPeak * 3)
  let modeDetails := (modes.filter fun m => decide (m.freq ≤ 120)).map fun mode =>
    let lpCoupling := calcPressureWithSign ops listener mode room
    let netSubExcitation := subPositions.foldl
      (fun sum sub => sum + calcPressureWithSign ops sub mode room) 0
    let effectiveImpact := |netSubExcitation * lpCoupling|
    ModeDetail.mk mode |lpCoupling| netSubExcitation |netSubExcitation| effectiveImpact
      (decide (|netSubExcitation| < 1/5) && decide (1 < subPositions.length))
  ScoreResult.mk flatnessScore peakToPeak stdDev fr modeDetails

/-- A placement strategy of `PLACEMENT_STRATEGIES`: a subwoofer count and a
pure position generator.  The UI-only `name`/`description` strings are
omitted. -/
structure Strategy where
  subs : ℕ
  getPositions : Room → List Pos

/-- The `PLACEMENT_STRATEGIES` table, in object-literal insertion order
(which is the iteration order of `Object.entries`): single-corner-fl,
single-corner-fr, single-midwall-front, single-midwall-side,
dual-front-corners, dual-opposite-corners, dual-front-rear-midwall,
dual-side-midwalls, triple-front-wall, triple-lfe-array, quad-corners,
quad-midwalls, quad-double-bass-array, five-corners-plus-center,
six-distributed, six-corners-plus-midwalls, eight-perimeter,
eight-corners-plus-midwalls. -/
def placementStrategies : List Strategy :=
  [ ⟨1, fun _ => [⟨1/2, 1/2, 0⟩]⟩,
    ⟨1, fun room => [⟨1/2, room.width - 1/2, 0⟩]⟩,
    ⟨1, fun room => [⟨1/2, room.width / 2, 0⟩]⟩,
    ⟨1, fun room => [⟨room.length / 2, 1/2, 0⟩]⟩,
    ⟨2, fun room => [⟨1/2, 1/2, 0⟩, ⟨1/2, room.width - 1/2, 0⟩]⟩,
    ⟨2, fun room => [⟨1/2, 1/2, 0⟩, ⟨room.length - 1/2, room.width - 1/2, 0⟩]⟩,
    ⟨2, fun room => [⟨1/2, room.width / 2, 0⟩, ⟨room.length - 1/2, room.width / 2, 0⟩]⟩,
    ⟨2, fun room => [⟨room.length / 2, 1/2, 0⟩, ⟨room.length / 2, room.width - 1/2, 0⟩]⟩,
    ⟨3, fun room => [⟨1/2, room.width * (1/4), 0⟩, ⟨1/2, room.width * (1/2), 0⟩,
      ⟨1/2, room.width * (3/4), 0⟩]⟩,
    ⟨3, fun room => [⟨1/2, 1/2, 0⟩, ⟨1/2, room.width - 1/2, 0⟩,
      ⟨room.length - 1/2, room.width / 2, 0⟩]⟩,
    ⟨4, fun room => [⟨1/2, 1/2, 0⟩, ⟨1/2, room.width - 1/2, 0⟩,
      ⟨room.length - 1/2, 1/2, 0⟩, ⟨room.length - 1/2, room.width - 1/2, 0⟩]⟩,
    ⟨4, fun room => [⟨1/2, room.width / 2, 0⟩, ⟨room.length - 1/2, room.width / 2, 0⟩,
      ⟨room.length / 2, 1/2, 0⟩, ⟨room.length / 2, room.width - 1/2, 0⟩]⟩,
    ⟨4, fun room => [⟨1/2, room.width * (1/8), 0⟩, ⟨1/2, room.width * (3/8), 0⟩,
      ⟨1/2, room.width * (5/8), 0⟩, ⟨1/2, room.width * (7/8), 0⟩]⟩,
    ⟨5, fun room => [⟨1/2, 1/2, 0⟩, ⟨1/2, room.width - 1/2, 0⟩,
      ⟨room.length - 1/2, 1/2, 0⟩, ⟨room.length - 1/2, room.width - 1/2, 0⟩,
      ⟨1/2, room.width / 2, 0⟩]⟩,
    ⟨6, fun room => [⟨1/2, room.width * (17/100), 0⟩, ⟨1/2, room.width * (1/2), 0⟩,
      ⟨1/2, room.width * (83/100), 0⟩, ⟨room.length - 1/2, room.width * (17/100), 0⟩,
      ⟨room.length - 1/2, room.width * (1/2), 0⟩,
      ⟨room.length - 1/2, room.width * (83/100), 0⟩]⟩,
    ⟨6, fun room => [⟨1/2, 1/2, 0⟩, ⟨1/2, room.width - 1/2, 0⟩,
      ⟨room.length - 1/2, 1/2, 0⟩, ⟨room.length - 1/2, room.width - 1/2, 0⟩,
      ⟨room.length / 2, 1/2, 0⟩, ⟨room.length / 2, room.width - 1/2, 0⟩]⟩,
    ⟨8, fun room => [⟨1/2, room.width * (1/4), 0⟩, ⟨1/2, room.width * (3/4), 0⟩,
      ⟨room.length - 1/2, room.width * (1/4), 0⟩, ⟨room.length - 1/2, room.width * (3/4), 0⟩,
      ⟨room.length * (1/4), 1/2, 0⟩, ⟨room.length * (3/4), 1/2, 0⟩,
      ⟨room.length * (1/4), room.width - 1/2, 0⟩, ⟨room.length * (3/4), room.width - 1/2, 0⟩]⟩,
    ⟨8, fun room => [⟨1/2, 1/2, 0⟩, ⟨1/2, room.width - 1/2, 0⟩,
      ⟨room.length - 1/2, 1/2, 0⟩, ⟨room.length - 1/2, room.width - 1/2, 0⟩,
      ⟨1/2, room.width / 2, 0⟩, ⟨room.length - 1/2, room.width / 2, 0⟩,
      ⟨room.length / 2, 1/2, 0⟩, ⟨room.length / 2, room.width - 1/2, 0⟩]⟩ ]

/-- The wall tag attached to each grid candidate. -/
inductive Wall where
  | front
  | rear
  | left
  | right
deriving DecidableEq

/-- A grid candidate `{x, y, z, wall}` of `optimizeSubPositions`. -/
structure GridPos where
  x : ℚ
  y : ℚ
  z : ℚ
  wall : Wall
deriving DecidableEq

/-- Forget the wall tag (the scoring functions read only `x`, `y`, `z`). -/
def GridPos.toPos (p : GridPos) : Pos := ⟨p.x, p.y, p.z⟩

/-- The values produced by `for (let v = start; v < stop; v += step)` for a
positive `step`: `start + i·step` for every natural `i` with
`start + i·step < stop`, i.e. `i < (stop − start)/step`. -/
def gridRange (start stop step : ℚ) : List ℚ :=
  (List.range (⌈(stop - start) / step⌉).toNat).map fun i => start + (i : ℚ) * step

/-- The candidate grid of `optimizeSubPositions`: front-wall points, then
rear-wall, left-wall and right-wall points, in the loop order of the
source. -/
def gridPositions (room : Room) (gridResolution : ℚ) : List GridPos :=
  ((gridRange (1/2) room.width gridResolution).map fun y =>
      GridPos.mk (1/2) y 0 Wall.front) ++
  ((gridRange (1/2) room.width gridResolution).map fun y =>
      GridPos.mk (room.length - 1/2) y 0 Wall.rear) ++
  ((gridRange gridResolution (room.length - gridResolution) gridResolution).map fun x =>
      GridPos.mk x (1/2) 0 Wall.left) ++
  ((gridRange gridResolution (room.length - gridResolution) gridResolution).map fun x =>
      GridPos.mk x (room.width - 1/2) 0 Wall.right)

/-- A scored configuration (`bestConfig = { positions, score }`). -/
structure Config where
  positions : List Pos
  score : ScoreResult
deriving DecidableEq

/-- `score.overall > bestScore`, where `bestScore` starts at `-Infinity`
(modelled by `none`): every finite score beats `-Infinity`. -/
def betterThan (cand : ℚ) (best : Option ℚ) : Bool :=
  match best with
  | none => true
  | some b => decide (b < cand)

/-- The running `(bestScore, bestConfig)` pair threaded through the search
loops of `optimizeSubPositions`; `(none, none)` is the initial
`(-Infinity, null)`. -/
def bestLoop (cands : List Config) (best : Option ℚ × Option Config) :
    Option ℚ × Option Config :=
  match cands with
  | [] => best
  | c :: rest =>
      bestLoop rest (if betterThan c.score.overall best.1
        then (some c.score.overall, some c) else best)

/-- `positions.filter(p => p.x < room.length / 2 || p.wall === 'front')`. -/
def frontHalf (positions : List GridPos) (room : Room) : List GridPos :=
  positions.filter fun p => decide (p.x < room.length / 2) || decide (p.wall = Wall.front)

/-- The mirror partner built in the symmetric branch:
`{ x: pos1.wall === 'front' ? pos1.x : room.length - pos1.x,
   y: room.width - pos1.y, z: 0 }`. -/
def mirrorPos (p1 : GridPos) (room : Room) : Pos :=
  ⟨if p1.wall = Wall.front then p1.x else room.length - p1.x, room.width - p1.y, 0⟩

/-- The pairs evaluated by the symmetric `numSubs === 2` branch: each
front-half candidate paired with its mirror. -/
def symPairs (positions : List GridPos) (room : Room) : List (GridPos × Pos) :=
  (frontHalf positions room).map fun p1 => (p1, mirrorPos p1 room)

/-- The pairs evaluated by the non-symmetric `numSubs === 2` branch:
`pos1 = frontHalf[i]` and `pos2 = positions[j]` for `j` from `i + 1` to
`positions.length - 1` (note: `i` indexes `frontHalf` but bounds `j` inside
`positions`, exactly as in the source). -/
def nonSymPairs (positions : List GridPos) (room : Room) : List (GridPos × GridPos) :=
  (frontHalf positions room).enum.flatMap fun ip =>
    (positions.drop (ip.1 + 1)).map fun p2 => (ip.2, p2)

/-- The candidate configurations scored by each branch of
`optimizeSubPositions`, in loop order. -/
def candidateConfigs (ops : Ops) (numSubs : ℕ) (modes : List Mode) (room : Room)
    (listener : Pos) (gridResolution : ℚ) (symmetryConstraint : Bool) : List Config :=
  let positions := gridPositions room gridResolution
  if numSubs = 1 then
    positions.map fun pos =>
      ⟨[pos.toPos], scoreSubConfig ops [pos.toPos] modes room listener⟩
  else if numSubs = 2 then
    if symmetryConstraint then
      (symPairs positions room).map fun pr =>
        ⟨[pr.1.toPos, pr.2], scoreSubConfig ops [pr.1.toPos, pr.2] modes room listener⟩
    else
      (nonSymPairs positions room).map fun pr =>
        ⟨[pr.1.toPos, pr.2.toPos],
          scoreSubConfig ops [pr.1.toPos, pr.2.toPos] modes room listener⟩
  else if numSubs = 4 then
    (placementStrategies.filter fun s => decide (s.subs = 4)).map fun s =>
      ⟨s.getPositions room, scoreSubConfig ops (s.getPositions room) modes room listener⟩
  else []

/-- `optimizeSubPositions(numSubs, modes, room, listener, options)` from the
source: run the branch for `numSubs` (1, 2 with or without symmetry, or 4
over the quad strategies of the catalog), keeping the best-scoring
configuration under strict `>` comparison against a `bestScore` that starts
at `-Infinity`; any other count leaves `bestConfig = null`. -/
def optimizeSubPositions (ops : Ops) (numSubs : ℕ) (modes : List Mode) (room : Room)
    (listener : Pos) (gridResolution : ℚ) (symmetryConstraint : Bool) : Option Config :=
  (bestLoop (candidateConfigs ops numSubs modes room listener gridResolution
    symmetryConstraint) (none, none)).2

/-! ## Specification-side definitions (written from the claims) -/

/-- Ascending order on a projected key: the list is sorted non-decreasingly
by `f`. -/
def sortedAscending {α : Type} (f : α → ℚ) (l : List α) : Prop :=
  List.Pairwise (fun a b => f a ≤ f b) l

/-- The claim's frequency formula
`f = (1130/2) * sqrt((n/L)²·[n>0] + (m/W)²·[m>0] + (l/H)²·[l>0])`. -/
def specFreq (ops : Ops) (n m l : ℕ) (L W H : ℚ) : ℚ :=
  (1130 / 2) * ops.sqrt ((if 0 < n then ((n : ℚ) / L) ^ 2 else 0) +
    (if 0 < m then ((m : ℚ) / W) ^ 2 else 0) +
    (if 0 < l then ((l : ℚ) / H) ^ 2 else 0))

/-- The number of nonzero indices of a mode triple. -/
def nonzeroCount (n m l : ℕ) : ℕ :=
  (if 0 < n then 1 else 0) + (if 0 < m then 1 else 0) + (if 0 < l then 1 else 0)

/-- The claim's classification: 1 nonzero index → axial (level 0),
2 → tangential (level −3), 3 → oblique (level −6). -/
def specClassification (n m l : ℕ) : ModeType × ℤ :=
  if nonzeroCount n m l = 1 then (ModeType.axial, 0)
  else if nonzeroCount n m l = 2 then (ModeType.tangential, -3)
  else (ModeType.oblique, -6)

/-- The algebraic (sign-preserving) sum of the signed excitations of all
subwoofer positions, written as a sum over a map. -/
def specNetExcitation (ops : Ops) (subPositions : List Pos) (mode : Mode) (room : Room) : ℚ :=
  (subPositions.map fun sub => calcPressureWithSign ops sub mode room).sum

/-- The modes within the modal bandwidth `f/8` of a swept frequency `f`. -/
def bandModes (modes : List Mode) (f : ℚ) : List Mode :=
  modes.filter fun m => decide (|m.freq - f| < f / 8)

/-- The claim's modal sum at a swept frequency: over the in-band modes, the
signed listener coupling times the net excitation times the type weight. -/
def specModalSum (ops : Ops) (subPositions : List Pos) (modes : List Mode)
    (room : Room) (listener : Pos) (f : ℚ) : ℚ :=
  ((bandModes modes f).map fun mode =>
    calcPressureWithSign ops listener mode room *
      specNetExcitation ops subPositions mode room * typeWeight mode.type).sum

/-- The claim's description of one sweep point: pressure is the modal sum
plus the `0.5` baseline, dB is `20·log10 |pressure|`. -/
def specFRPoint (ops : Ops) (subPositions : List Pos) (modes : List Mode)
    (room : Room) (listener : Pos) (f : ℚ) : FRPoint :=
  FRPoint.mk f
    (20 * ops.log10 |specModalSum ops subPositions modes room listener f + 1/2|)
    (specModalSum ops subPositions modes room listener f + 1/2)

/-- The claim's description of one `modeDetails` entry of `scoreSubConfig`. -/
def specModeDetail (ops : Ops) (subPositions : List Pos) (room : Room)
    (listener : Pos) (mode : Mode) : ModeDetail :=
  ModeDetail.mk mode
    |calcPressureWithSign ops listener mode room|
    (specNetExcitation ops subPositions mode room)
    |specNetExcitation ops subPositions mode room|
    |specNetExcitation ops subPositions mode room * calcPressureWithSign ops listener mode room|
    (decide (|specNetExcitation ops subPositions mode room| < 1/5 ∧ 1 < subPositions.length))

/-- The first candidate attaining the running maximum, starting from `c`:
a later candidate replaces the current best only when strictly better.  This
is the specification of the `bestScore`/`bestConfig` loop. -/
def firstBest1 (c : Config) (cands : List Config) : Config :=
  match cands with
  | [] => c
  | d :: rest => firstBest1 (if betterThan d.score.overall (some c.score.overall) then d else c) rest

/-- The state of the app component that feeds `subOptimizerResults`: room,
wall openings, listener, and the optimizer settings.  (`wallOpenings` is in
scope in the component but never read by this computation.) -/
structure AppDerivedInput where
  room : Room
  wallOpenings : WallOpenings
  listener : Pos
  numSubs : ℕ
  symmetryConstraint : Bool

/-- The `subOptimizerResults` grid-search computation of the component:
`modes = generateModes(room, 200)` (default `maxOrder = 6`), filtered to
`freq <= 120`, then `optimizeSubPositions` with the default grid resolution
`1.5`. -/
def subOptimizerPipeline (ops : Ops) (st : AppDerivedInput) : Option Config :=
  let modes := generateModes ops st.room.length st.room.width st.room.height 200 6
  let modesForOptimization := modes.filter fun m => decide (m.freq ≤ 120)
  optimizeSubPositions ops st.numSubs modesForOptimization st.room st.listener (3/2)
    st.symmetryConstraint

/-! ## Concrete instances used by witnesses and counterexamples -/

/-- A simple computable interpretation of the primitives: `cos` constantly 1,
`sqrt` the identity, `log10` constantly 0, `pi = 3`. -/
def constOps : Ops := ⟨fun _ => 1, id, fun _ => 0, 3⟩

/-- An interpretation whose `cos` is constantly 0 (every position a node). -/
def zeroCosOps : Ops := ⟨fun _ => 0, id, fun _ => 0, 3⟩

/-- A 2 ft × 1.2 ft × 9 ft room: its candidate grid at the default 1.5 ft
resolution has exactly one front-wall and one rear-wall point. -/
def wRoom : Room := ⟨2, 6/5, 9⟩

/-- A listener used by the witnesses. -/
def wListener : Pos := ⟨1, 1, 1⟩

/-- A 4 ft × 1.2 ft × 9 ft room: its candidate grid at the default 1.5 ft
resolution is front `(0.5, 0.5)`, rear `(3.5, 0.5)`, left `(1.5, 0.5)` and
right `(1.5, 0.7)`; the rear point is outside the front half. -/
def c4Room : Room := ⟨4, 6/5, 9⟩

/-- The rear-wall grid candidate of `c4Room`. -/
def c4Rear : GridPos := ⟨7/2, 1/2, 0, Wall.rear⟩

/-- The left-wall grid candidate of `c4Room`. -/
def c4Left : GridPos := ⟨3/2, 1/2, 0, Wall.left⟩

/-- The interpretation for the C5 counterexample: the axis argument of the
subwoofer at `x = 2L/3` is `1·pi·(2/3)/1 = 2` (with `pi` read as 3), and its
cosine is `−1/2` — mirroring the exact real value `cos(2π/3) = −1/2`; every
other argument (the listener's is 0) has cosine 1 = cos 0. -/
def c5Ops : Ops := ⟨fun q => if q = 2 then -(1/2) else 1, id, fun _ => 0, 3⟩

/-- A length mode at exactly 40 Hz (in band at the swept frequency 40). -/
def c5Mode : Mode := ⟨1, 0, 0, 40, ModeType.axial, 0⟩

/-- A 1 ft³ room (dimensions only feed the cosine arguments here). -/
def c5Room : Room := ⟨1, 1, 1⟩

/-- The mode for the C6 counterexample: an axial mode at 20 Hz (in band at
the swept frequencies 20 and 22 only). -/
def c6Mode : Mode := ⟨1, 0, 0, 20, ModeType.axial, 0⟩

/-- The interpretation for the C6 counterexample: every cosine 1 (the
listener and subwoofer couple fully), and a `log10` sending the in-band
pressure `1.5` to `1.665` (so those points read 33.3 dB) and everything else
to 0. -/
def c6Ops : Ops := ⟨fun _ => 1, id, fun q => if q = 3/2 then 333/200 else 0, 3⟩

/-- The interpretation for the C6 witness: as `c6Ops` but sending `1.5` to
`1.7` (34 dB). -/
def c6bOps : Ops := ⟨fun _ => 1, id, fun q => if q = 3/2 then 17/10 else 0, 3⟩

/-- A fallback configuration for `Option.getD`. -/
def dfltConfig : Config := ⟨[], ⟨0, 0, 0, [], []⟩⟩

/-! ## Theorems -/

section Claims

set_option allowUnsafeReducibility true
set_option maxRecDepth 100000
attribute [local semireducible] Rat.add Rat.mul Rat.inv Rat.sub

/-- A left fold accumulating `+ g x` is the starting value plus the sum of
the mapped list (the shape of `reduce`/`forEach` accumulation in the
source). -/
theorem foldl_add_map_sum {α : Type} (g : α → ℚ) (l : List α) (a : ℚ) :
    l.foldl (fun acc x => acc + g x) a = a + (l.map g).sum := by
  induction l generalizing a with
  | nil => simp
  | cons x xs ih => simp [ih]; ring

/-- `mergeSort` under the boolean key comparison is sorted on the key. -/
theorem pairwise_mergeSort_key {α : Type} (f : α → ℚ) (l : List α) :
    List.Pairwise (fun a b => f a ≤ f b)
      (l.mergeSort fun a b => decide (f a ≤ f b)) := by
  have h := @List.sorted_mergeSort _ (fun a b => decide (f a ≤ f b))
    (fun a b c hab hbc => by
      simp only [decide_eq_true_eq] at *
      exact le_trans hab hbc)
    (fun a b => by
      simp only [Bool.or_eq_true, decide_eq_true_eq]
      exact le_total (f a) (f b)) l
  exact h.imp fun hab => by simpa using hab

/-- Claim C7: with all wall openings at 0 the pressure at a node (a position
where one of the mode's axis cosine factors is exactly zero) is exactly 0;
with both walls along one of the mode's nonzero width/length axes 100% open
the pressure is exactly 0.5 at every position; and in general the pressure
follows `0.5 + (rawUnsignedPressure − 0.5) · modeStrength` with the strength
the product of `(1 − left/100)(1 − right/100)` for width-index modes and
`(1 − front/100)(1 − rear/100)` for length-index modes. -/
theorem c7_pressure_boundary_cases (ops : Ops) (x y z : ℚ) (mode : Mode)
    (room : Room) (w : WallOpenings) :
    (w = ⟨0, 0, 0, 0⟩ →
      (axisX ops mode room x = 0 ∨ axisY ops mode room y = 0 ∨ axisZ ops mode room z = 0) →
      calcPressureAtPosition ops x y z mode room w = 0) ∧
    ((0 < mode.m ∧ w.left = 100 ∧ w.right = 100) ∨
        (0 < mode.n ∧ w.front = 100 ∧ w.rear = 100) →
      calcPressureAtPosition ops x y z mode room w = 1/2) ∧
    calcPressureAtPosition ops x y z mode room w =
      1/2 + (|axisX ops mode room x * axisY ops mode room y * axisZ ops mode room z| - 1/2) *
        ((if 0 < mode.m then (1 - w.left / 100) * (1 - w.right / 100) else 1) *
         (if 0 < mode.n then (1 - w.front / 100) * (1 - w.rear / 100) else 1)) := by
  refine ⟨?_, ?_, ?_⟩
  · rintro rfl hnode
    rcases hnode with h | h | h <;>
      simp only [calcPressureAtPosition, h, zero_mul, mul_zero, abs_zero] <;>
      split_ifs <;> norm_num
  · rintro (⟨hm, hl, hr⟩ | ⟨hn, hf, hr⟩)
    · simp only [calcPressureAtPosition, hm, hl, hr, if_pos]
      split_ifs <;> norm_num
    · simp only [calcPressureAtPosition, hn, hf, hr, if_pos]
      split_ifs <;> norm_num
  · simp only [calcPressureAtPosition]
    split_ifs <;> ring

/-- Witness for C7 at concrete inputs: with `cos` constantly 0 the mode
`(1,1,0)` has a zero axis factor everywhere, so closed walls give pressure 0;
opening the left and right walls fully gives pressure exactly 0.5. -/
theorem c7_witness :
    calcPressureAtPosition zeroCosOps 1 1 1 ⟨1, 1, 0, 40, ModeType.tangential, -3⟩ wRoom
        ⟨0, 0, 0, 0⟩ = 0 ∧
    calcPressureAtPosition zeroCosOps 1 1 1 ⟨1, 1, 0, 40, ModeType.tangential, -3⟩ wRoom
        ⟨0, 0, 100, 100⟩ = 1/2 :=
  ⟨(c7_pressure_boundary_cases zeroCosOps 1 1 1 _ wRoom _).1 rfl (Or.inl (by decide)),
   (c7_pressure_boundary_cases zeroCosOps 1 1 1 _ wRoom _).2.1 (Or.inl (by decide))⟩

/-- Claim C9: `calcSBIR` is sorted ascending by frequency and holds an entry
exactly for each boundary whose distance `d` satisfies `0.1 < d < 15`, with
frequency exactly `1130 / (2 d)`. -/
theorem c9_calcSBIR (speaker : Pos) (room : Room) :
    sortedAscending SBIREntry.freq (calcSBIR speaker room) ∧
    ∀ e : SBIREntry, e ∈ calcSBIR speaker room ↔
      ∃ b : Boundary, 1/10 < boundaryDistance speaker room b ∧
        boundaryDistance speaker room b < 15 ∧
        e = ⟨b, boundaryDistance speaker room b,
              1130 / (2 * boundaryDistance speaker room b)⟩ := by
  constructor
  · exact pairwise_mergeSort_key SBIREntry.freq _
  · intro e
    simp only [calcSBIR, List.mem_mergeSort, List.mem_map, List.mem_filter,
      List.mem_cons, List.not_mem_nil, or_false, Bool.and_eq_true, decide_eq_true_eq]
    constructor
    · rintro ⟨d, ⟨hmem, h1, h2⟩, rfl⟩
      rcases hmem with rfl | rfl | rfl | rfl | rfl | rfl
      exacts [⟨Boundary.frontWall, h1, h2, rfl⟩, ⟨Boundary.rearWall, h1, h2, rfl⟩,
        ⟨Boundary.leftWall, h1, h2, rfl⟩, ⟨Boundary.rightWall, h1, h2, rfl⟩,
        ⟨Boundary.floor, h1, h2, rfl⟩, ⟨Boundary.ceiling, h1, h2, rfl⟩]
    · rintro ⟨b, h1, h2, rfl⟩
      refine ⟨(b, boundaryDistance speaker room b), ⟨?_, h1, h2⟩, by cases b <;> rfl⟩
      cases b <;> simp [boundaryDistance]

/-- The nonzero-index count computed by `getModeType`'s list filter equals
the arithmetic count. -/
theorem getModeType_eq_spec (n m l : ℕ) :
    getModeType n m l = specClassification n m l := by
  by_cases h1 : 0 < n <;> by_cases h2 : 0 < m <;> by_cases h3 : 0 < l <;>
    simp [getModeType, specClassification, nonzeroCount, List.filter, h1, h2, h3]

/-- Each axis term of the frequency formula is nonnegative. -/
theorem freqTerm_nonneg (k : ℕ) (D : ℚ) :
    0 ≤ (if 0 < k then ((k : ℚ) / D) ^ 2 else 0) := by
  split_ifs
  · exact sq_nonneg _
  · exact le_refl 0

/-- With positive dimensions and not all indices zero, the term sum of the
frequency formula is positive. -/
theorem termsum_pos {n m l : ℕ} {L W H : ℚ} (hL : 0 < L) (hW : 0 < W) (hH : 0 < H)
    (hnz : ¬(n = 0 ∧ m = 0 ∧ l = 0)) :
    0 < (if 0 < n then ((n : ℚ) / L) ^ 2 else 0) +
      (if 0 < m then ((m : ℚ) / W) ^ 2 else 0) +
      (if 0 < l then ((l : ℚ) / H) ^ 2 else 0) := by
  have key : ∀ (k : ℕ) (D : ℚ), 0 < D → 0 < k →
      0 < (if 0 < k then ((k : ℚ) / D) ^ 2 else 0) := by
    intro k D hD hk
    rw [if_pos hk]
    exact pow_pos (div_pos (by exact_mod_cast hk) hD) 2
  rcases Nat.eq_zero_or_pos n with hn | hn
  · rcases Nat.eq_zero_or_pos m with hm | hm
    · rcases Nat.eq_zero_or_pos l with hl | hl
      · exact absurd ⟨hn, hm, hl⟩ hnz
      · have := key l H hH hl
        have := freqTerm_nonneg n L
        have := freqTerm_nonneg m W
        linarith
    · have := key m W hW hm
      have := freqTerm_nonneg n L
      have := freqTerm_nonneg l H
      linarith
  · have := key n L hL hn
    have := freqTerm_nonneg m W
    have := freqTerm_nonneg l H
    linarith

/-- With positive dimensions and not all indices zero, `calcModeFreq` takes
its non-degenerate branch and equals the claim's formula. -/
theorem calcModeFreq_eq_spec (ops : Ops) {n m l : ℕ} {L W H : ℚ}
    (hL : 0 < L) (hW : 0 < W) (hH : 0 < H) (hnz : ¬(n = 0 ∧ m = 0 ∧ l = 0)) :
    calcModeFreq ops n m l L W H = specFreq ops n m l L W H := by
  unfold calcModeFreq specFreq
  rw [if_neg (termsum_pos hL hW hH hnz).ne']
  rfl

/-- Claim C1: `generateModes` is sorted non-decreasingly by frequency, and a
mode record is in its output exactly when its indices lie in `[0, maxOrder]`
and are not all zero, its frequency is the claim's formula and lies in
`(0, maxFreq]`, and its type and level follow the nonzero-index count
(1 → axial 0, 2 → tangential −3, 3 → oblique −6). -/
theorem c1_generateModes (ops : Ops) (L W H maxF : ℚ) (maxOrd : ℕ)
    (hL : 0 < L) (hW : 0 < W) (hH : 0 < H) :
    sortedAscending Mode.freq (generateModes ops L W H maxF maxOrd) ∧
    ∀ mo : Mode, mo ∈ generateModes ops L W H maxF maxOrd ↔
      (mo.n ≤ maxOrd ∧ mo.m ≤ maxOrd ∧ mo.l ≤ maxOrd ∧
       ¬(mo.n = 0 ∧ mo.m = 0 ∧ mo.l = 0) ∧
       mo.freq = specFreq ops mo.n mo.m mo.l L W H ∧
       0 < mo.freq ∧ mo.freq ≤ maxF ∧
       (mo.type, mo.level) = specClassification mo.n mo.m mo.l) := by
  constructor
  · exact pairwise_mergeSort_key Mode.freq _
  · intro mo
    simp only [generateModes, List.mem_mergeSort, List.mem_flatMap,
      List.mem_filterMap, List.mem_range, Nat.lt_succ_iff]
    constructor
    · rintro ⟨n, hn, m, hm, l, hl, h⟩
      by_cases h000 : n = 0 ∧ m = 0 ∧ l = 0
      · rw [if_pos h000] at h
        simp at h
      · rw [if_neg h000] at h
        by_cases hband : 0 < calcModeFreq ops n m l L W H ∧
            calcModeFreq ops n m l L W H ≤ maxF
        · rw [if_pos hband, Option.some_inj] at h
          subst h
          refine ⟨hn, hm, hl, h000, ?_, hband.1, hband.2, ?_⟩
          · exact calcModeFreq_eq_spec ops hL hW hH h000
          · show ((getModeType n m l).1, (getModeType n m l).2) = specClassification n m l
            rw [← getModeType_eq_spec n m l]
        · rw [if_neg hband] at h
          simp at h
    · rintro ⟨hn, hm, hl, h000, hfreq, hpos, hle, hclass⟩
      refine ⟨mo.n, hn, mo.m, hm, mo.l, hl, ?_⟩
      rw [if_neg h000]
      have hcf : calcModeFreq ops mo.n mo.m mo.l L W H = mo.freq := by
        rw [calcModeFreq_eq_spec ops hL hW hH h000]
        exact hfreq.symm
      rw [hcf, if_pos ⟨hpos, hle⟩, Option.some_inj]
      have hgt : getModeType mo.n mo.m mo.l = (mo.type, mo.level) := by
        rw [getModeType_eq_spec]
        exact hclass.symm
      rw [hgt]

/-- Witness for C1: a concrete 2 ft × 3 ft × 4 ft room with positive
dimensions; the generated list is sorted by frequency. -/
theorem c1_witness :
    (0 : ℚ) < 2 ∧ (0 : ℚ) < 3 ∧ (0 : ℚ) < 4 ∧
    sortedAscending Mode.freq (generateModes constOps 2 3 4 600 1) :=
  ⟨by norm_num, by norm_num, by norm_num,
    (c1_generateModes constOps 2 3 4 600 1 (by norm_num) (by norm_num) (by norm_num)).1⟩

/-- The inner `reduce` accumulating signed excitation over the subwoofer
positions equals the algebraic sum of the mapped list. -/
theorem foldl_excitation_eq (ops : Ops) (subPositions : List Pos) (mode : Mode) (room : Room) :
    subPositions.foldl (fun sum sub => sum + calcPressureWithSign ops sub mode room) 0 =
      specNetExcitation ops subPositions mode room := by
  rw [foldl_add_map_sum (fun sub => calcPressureWithSign ops sub mode room)]
  simp [specNetExcitation]

/-- `calcPredictedFR` is the sweep mapped through the claim's per-point
formula: in-band filter, listener coupling times net excitation times type
weight, summed, plus the `0.5` baseline, converted to dB. -/
theorem calcPredictedFR_eq_map (ops : Ops) (subPositions : List Pos) (modes : List Mode)
    (room : Room) (listener : Pos) (lo hi : ℚ) :
    calcPredictedFR ops subPositions modes room listener lo hi =
      (sweepFreqs lo hi).map (specFRPoint ops subPositions modes room listener) := by
  unfold calcPredictedFR
  refine List.map_congr_left fun f _ => ?_
  dsimp only
  unfold specFRPoint
  have hT : (modes.filter fun m => decide (|m.freq - f| < f / 8)).foldl
      (fun acc mode =>
        acc + (subPositions.foldl
            (fun sum sub => sum + calcPressureWithSign ops sub mode room) 0) *
          calcPressureWithSign ops listener mode room * typeWeight mode.type) 0 =
      specModalSum ops subPositions modes room listener f := by
    rw [foldl_add_map_sum (fun mode =>
      (subPositions.foldl (fun sum sub => sum + calcPressureWithSign ops sub mode room) 0) *
        calcPressureWithSign ops listener mode room * typeWeight mode.type)]
    simp only [zero_add, specModalSum, bandModes]
    refine congrArg List.sum (List.map_congr_left fun m _ => ?_)
    rw [foldl_excitation_eq]
    ring
  rw [hT]

/-- Claim C2: over the default 20–120 Hz range the sweep is exactly
20, 22, …, 120, and each point of `calcPredictedFR` carries the pressure
`0.5 + Σ (listener coupling · net signed excitation · type weight)` over the
modes within `f/8` of the swept frequency, with `dB = 20·log10 |pressure|`. -/
theorem c2_calcPredictedFR (ops : Ops) (subPositions : List Pos) (modes : List Mode)
    (room : Room) (listener : Pos) :
    calcPredictedFR ops subPositions modes room listener 20 120 =
      (sweepFreqs 20 120).map (specFRPoint ops subPositions modes room listener) ∧
    sweepFreqs 20 120 =
      [20, 22, 24, 26, 28, 30, 32, 34, 36, 38, 40, 42, 44, 46, 48, 50, 52, 54,
       56, 58, 60, 62, 64, 66, 68, 70, 72, 74, 76, 78, 80, 82, 84, 86, 88, 90,
       92, 94, 96, 98, 100, 102, 104, 106, 108, 110, 112, 114, 116, 118, 120] :=
  ⟨calcPredictedFR_eq_map ops subPositions modes room listener 20 120, by decide⟩

/-- Amended claim C5: every sweep point's pressure is the modal sum plus the
`0.5` baseline, so it is nonzero whenever the modal sum differs from `−0.5`
(in particular whenever no modes fall within the bandwidth); it is *not*
nonzero in general (see the counterexample). -/
theorem c5_pressure_baseline (ops : Ops) (subPositions : List Pos) (modes : List Mode)
    (room : Room) (listener : Pos) (lo hi : ℚ) (pt : FRPoint)
    (hpt : pt ∈ calcPredictedFR ops subPositions modes room listener lo hi) :
    pt.pressure = specModalSum ops subPositions modes room listener pt.freq + 1/2 ∧
    (specModalSum ops subPositions modes room listener pt.freq ≠ -(1/2) →
      pt.pressure ≠ 0) ∧
    (bandModes modes pt.freq = [] → pt.pressure = 1/2) := by
  rw [calcPredictedFR_eq_map] at hpt
  obtain ⟨f, hf, rfl⟩ := List.mem_map.1 hpt
  refine ⟨rfl, fun hne h0 => ?_, fun hempty => ?_⟩
  · have h0' : specModalSum ops subPositions modes room listener f + 1/2 = 0 := h0
    exact hne (show specModalSum ops subPositions modes room listener f = -(1/2) by linarith)
  · show specModalSum ops subPositions modes room listener f + 1/2 = 1/2
    have he : bandModes modes f = [] := hempty
    simp [specModalSum, he]

/-- Witness for C5 (amended): with no modes, the first sweep point is
`{freq 20, dB 0, pressure 0.5}` and its pressure is nonzero. -/
theorem c5_witness :
    FRPoint.mk 20 0 (1/2) ∈ calcPredictedFR constOps [] [] wRoom wListener 20 120 ∧
    (FRPoint.mk 20 0 (1/2)).pressure ≠ 0 :=
  ⟨by decide,
    (c5_pressure_baseline constOps [] [] wRoom wListener 20 120
      (FRPoint.mk 20 0 (1/2)) (by decide)).2.1 (by decide)⟩

/-- Counterexample to C5 as stated: with a single subwoofer two-thirds along
the length (signed excitation `cos(2π/3) = −1/2`) and a listener at the front
wall (coupling 1), the axial contribution at the swept frequency 40 is
exactly `−1/2`, cancelling the `0.5` baseline: the total pressure at sweep
index 10 (frequency 40) is exactly 0, so its dB value is the logarithm of
zero and not finite. -/
theorem c5_counterexample :
    ((calcPredictedFR c5Ops [⟨2/3, 0, 0⟩] [c5Mode] c5Room ⟨0, 0, 0⟩ 20 120).getD 10
        (FRPoint.mk 0 0 99)).freq = 40 ∧
    ((calcPredictedFR c5Ops [⟨2/3, 0, 0⟩] [c5Mode] c5Room ⟨0, 0, 0⟩ 20 120).getD 10
        (FRPoint.mk 0 0 99)).pressure = 0 ∧
    ((calcPredictedFR c5Ops [⟨2/3, 0, 0⟩] [c5Mode] c5Room ⟨0, 0, 0⟩ 20 120).getD 10
        (FRPoint.mk 0 0 99)) ∈
      calcPredictedFR c5Ops [⟨2/3, 0, 0⟩] [c5Mode] c5Room ⟨0, 0, 0⟩ 20 120 := by
  refine ⟨by decide, by decide, by decide⟩

/-- Amended claim C6: `scoreSubConfig` computes `peakToPeak` as max minus min
of the curve's dB values, `overall = max(0, 100 − peakToPeak·3)` (so a 0 dB
spread scores exactly 100 and any spread ≥ 100/3 dB scores 0 — the claim's
threshold 33.3 is not exact, see the counterexample), and its `modeDetails`
cover exactly the modes at most 120 Hz with `effectiveImpact =
|netExcitation · listenerCoupling|` and `cancelled` exactly when
`|netExcitation| < 0.2` with more than one subwoofer. -/
theorem c6_scoreSubConfig (ops : Ops) (subPositions : List Pos) (modes : List Mode)
    (room : Room) (listener : Pos) :
    (scoreSubConfig ops subPositions modes room listener).peakToPeak =
      jsMax ((calcPredictedFR ops subPositions modes room listener 20 120).map
        FRPoint.dB) -
      jsMin ((calcPredictedFR ops subPositions modes room listener 20 120).map
        FRPoint.dB) ∧
    (scoreSubConfig ops subPositions modes room listener).overall =
      max 0 (100 - (scoreSubConfig ops subPositions modes room listener).peakToPeak * 3) ∧
    ((scoreSubConfig ops subPositions modes room listener).peakToPeak = 0 →
      (scoreSubConfig ops subPositions modes room listener).overall = 100) ∧
    (100/3 ≤ (scoreSubConfig ops subPositions modes room listener).peakToPeak →
      (scoreSubConfig ops subPositions modes room listener).overall = 0) ∧
    (scoreSubConfig ops subPositions modes room listener).modeDetails =
      (modes.filter fun m => decide (m.freq ≤ 120)).map
        (specModeDetail ops subPositions room listener) := by
  refine ⟨rfl, rfl, fun h => ?_, fun h => ?_, ?_⟩
  · show max (0:ℚ)
      (100 - (scoreSubConfig ops subPositions modes room listener).peakToPeak * 3) = 100
    rw [h]
    norm_num
  · show max (0:ℚ)
      (100 - (scoreSubConfig ops subPositions modes room listener).peakToPeak * 3) = 0
    exact max_eq_left (by linarith)
  · show (modes.filter fun m => decide (m.freq ≤ 120)).map _ = _
    refine List.map_congr_left fun m _ => ?_
    dsimp only
    unfold specModeDetail
    rw [foldl_excitation_eq, Bool.decide_and]

/-- Witness for C6 (amended), applying both conditional parts: with no modes
every dB value is equal, the spread is 0 and the score exactly 100; with a
crafted `log10` giving a 34 dB spread (≥ 100/3) the score is exactly 0. -/
theorem c6_witness :
    (scoreSubConfig constOps [] [] wRoom wListener).peakToPeak = 0 ∧
    (scoreSubConfig constOps [] [] wRoom wListener).overall = 100 ∧
    100/3 ≤ (scoreSubConfig c6bOps [⟨0, 0, 0⟩] [c6Mode] c5Room ⟨0, 0, 0⟩).peakToPeak ∧
    (scoreSubConfig c6bOps [⟨0, 0, 0⟩] [c6Mode] c5Room ⟨0, 0, 0⟩).overall = 0 :=
  ⟨by decide,
    (c6_scoreSubConfig constOps [] [] wRoom wListener).2.2.1 (by decide),
    by decide,
    (c6_scoreSubConfig c6bOps [⟨0, 0, 0⟩] [c6Mode] c5Room ⟨0, 0, 0⟩).2.2.2.1 (by decide)⟩

/-- Counterexample to C6 as stated: a predicted curve with peak-to-peak
spread exactly 33.3 dB scores `max(0, 100 − 99.9) = 0.1`, not 0, so "any
spread ≥ 33.3 dB scores 0" fails (the exact threshold is 100/3 ≈ 33.33). -/
theorem c6_counterexample :
    (scoreSubConfig c6Ops [⟨0, 0, 0⟩] [c6Mode] c5Room ⟨0, 0, 0⟩).peakToPeak = 333/10 ∧
    (scoreSubConfig c6Ops [⟨0, 0, 0⟩] [c6Mode] c5Room ⟨0, 0, 0⟩).overall = 1/10 ∧
    ¬(scoreSubConfig c6Ops [⟨0, 0, 0⟩] [c6Mode] c5Room ⟨0, 0, 0⟩).overall = 0 := by
  refine ⟨by decide, by decide, by decide⟩

/-- The first loop step moves `(-Infinity, null)` to the first candidate. -/
theorem bestLoop_start (c : Config) (cands : List Config) :
    bestLoop (c :: cands) (none, none) =
      bestLoop cands (some c.score.overall, some c) := by
  simp [bestLoop, betterThan]

/-- Started at a candidate, the search loop ends at the first candidate
attaining the maximum (`firstBest1`). -/
theorem bestLoop_some_eq (cands : List Config) (c : Config) :
    bestLoop cands (some c.score.overall, some c) =
      (some (firstBest1 c cands).score.overall, some (firstBest1 c cands)) := by
  induction cands generalizing c with
  | nil => simp [bestLoop, firstBest1]
  | cons d rest ih =>
      rw [bestLoop, firstBest1]
      by_cases hb : betterThan d.score.overall (some c.score.overall) = true
      · rw [if_pos hb, if_pos hb, ih]
      · rw [if_neg hb, if_neg hb, ih]

/-- The kept configuration scores at least the starting candidate. -/
theorem firstBest1_ge_start (c : Config) (cands : List Config) :
    c.score.overall ≤ (firstBest1 c cands).score.overall := by
  induction cands generalizing c with
  | nil => exact le_refl _
  | cons d rest ih =>
      rw [firstBest1]
      by_cases hb : betterThan d.score.overall (some c.score.overall) = true
      · rw [if_pos hb]
        have hlt : c.score.overall < d.score.overall := by
          simpa [betterThan] using hb
        exact le_trans hlt.le (ih d)
      · rw [if_neg hb]
        exact ih c

/-- The kept configuration scores at least every scanned candidate. -/
theorem firstBest1_ge_all (c : Config) (cands : List Config) :
    ∀ d ∈ c :: cands, d.score.overall ≤ (firstBest1 c cands).score.overall := by
  induction cands generalizing c with
  | nil =>
      intro d hd
      rw [List.mem_singleton] at hd
      subst hd
      exact le_refl _
  | cons e rest ih =>
      intro d hd
      rw [firstBest1]
      rcases List.mem_cons.1 hd with rfl | hd'
      · by_cases hb : betterThan e.score.overall (some d.score.overall) = true
        · rw [if_pos hb]
          have hlt : d.score.overall < e.score.overall := by
            simpa [betterThan] using hb
          exact le_trans hlt.le (firstBest1_ge_start e rest)
        · rw [if_neg hb]
          exact firstBest1_ge_start d rest
      · by_cases hb : betterThan e.score.overall (some c.score.overall) = true
        · rw [if_pos hb]
          exact ih e d hd'
        · rw [if_neg hb]
          rcases List.mem_cons.1 hd' with rfl | hd''
          · have hle : d.score.overall ≤ c.score.overall := by
              simpa [betterThan, not_lt] using hb
            exact le_trans hle (firstBest1_ge_start c rest)
          · exact ih c d (List.mem_cons.2 (Or.inr hd''))

/-- Ties go to the earlier candidate: every candidate scanned before the kept
one scores strictly less (the strict `>` comparison never replaces on a
tie). -/
theorem firstBest1_first (c : Config) (cands : List Config) :
    ∃ pre post, c :: cands = pre ++ (firstBest1 c cands) :: post ∧
      ∀ d ∈ pre, d.score.overall < (firstBest1 c cands).score.overall := by
  induction cands generalizing c with
  | nil => exact ⟨[], [], rfl, by simp⟩
  | cons d rest ih =>
      rw [firstBest1]
      by_cases hb : betterThan d.score.overall (some c.score.overall) = true
      · rw [if_pos hb]
        obtain ⟨pre, post, heq, hlt⟩ := ih d
        refine ⟨c :: pre, post, by rw [List.cons_append, ← heq], ?_⟩
        intro e he
        rcases List.mem_cons.1 he with rfl | he'
        · have h1 : e.score.overall < d.score.overall := by
            simpa [betterThan] using hb
          exact lt_of_lt_of_le h1 (firstBest1_ge_start d rest)
        · exact hlt e he'
      · rw [if_neg hb]
        obtain ⟨pre, post, heq, hlt⟩ := ih c
        cases pre with
        | nil =>
            simp only [List.nil_append] at heq
            injection heq with h1 h2
            refine ⟨[], d :: rest, ?_, by simp⟩
            simp only [List.nil_append]
            rw [← h1]
        | cons p pre₂ =>
            rw [List.cons_append] at heq
            injection heq with h1 h2
            subst h1
            refine ⟨c :: d :: pre₂, post, ?_, ?_⟩
            · simp only [List.cons_append]
              rw [← h2]
            · intro e he
              have hcw : c.score.overall < (firstBest1 c rest).score.overall :=
                hlt c (List.mem_cons_self c pre₂)
              rcases List.mem_cons.1 he with rfl | he'
              · exact hcw
              rcases List.mem_cons.1 he' with rfl | he''
              · have hle : e.score.overall ≤ c.score.overall := by
                  simpa [betterThan, not_lt] using hb
                exact lt_of_le_of_lt hle hcw
              · exact hlt e (List.mem_cons.2 (Or.inr he''))

/-- The optimizer is `firstBest1` over its candidate list (`none` exactly
when there are no candidates). -/
theorem optimize_eq_firstBest (ops : Ops) (numSubs : ℕ) (modes : List Mode)
    (room : Room) (listener : Pos) (res : ℚ) (sym : Bool) :
    optimizeSubPositions ops numSubs modes room listener res sym =
      match candidateConfigs ops numSubs modes room listener res sym with
      | [] => none
      | c :: rest => some (firstBest1 c rest) := by
  unfold optimizeSubPositions
  cases hc : candidateConfigs ops numSubs modes room listener res sym with
  | nil => rfl
  | cons c rest => rw [bestLoop_start, bestLoop_some_eq]

/-- Claim C3: whenever the single-subwoofer grid search returns a
configuration, its overall score is at least the score of every grid
candidate, and every candidate scanned before it scores strictly less (ties
keep the first, by strict `>` comparison). -/
theorem c3_optimizer_single (ops : Ops) (modes : List Mode) (room : Room)
    (listener : Pos) (res : ℚ) (sym : Bool) (cfg : Config)
    (h : optimizeSubPositions ops 1 modes room listener res sym = some cfg) :
    (∀ pos ∈ gridPositions room res,
      (scoreSubConfig ops [pos.toPos] modes room listener).overall ≤
        cfg.score.overall) ∧
    ∃ pre post,
      candidateConfigs ops 1 modes room listener res sym = pre ++ cfg :: post ∧
      ∀ d ∈ pre, d.score.overall < cfg.score.overall := by
  rw [optimize_eq_firstBest] at h
  cases hc : candidateConfigs ops 1 modes room listener res sym with
  | nil =>
      rw [hc] at h
      simp at h
  | cons c rest =>
      rw [hc] at h
      simp only [Option.some_inj] at h
      subst h
      constructor
      · intro pos hpos
        have hmem : (⟨[pos.toPos], scoreSubConfig ops [pos.toPos] modes room listener⟩ :
            Config) ∈ candidateConfigs ops 1 modes room listener res sym := by
          unfold candidateConfigs
          rw [if_pos rfl]
          exact List.mem_map_of_mem _ hpos
        rw [hc] at hmem
        exact firstBest1_ge_all c rest _ hmem
      · obtain ⟨pre, post, heq, hlt⟩ := firstBest1_first c rest
        exact ⟨pre, post, heq, hlt⟩

/-- Witness for C3: in the 2 ft × 1.2 ft room the grid has two candidates
(front and rear wall); with no modes the optimizer returns the first, and the
front candidate's score is at most the returned score. -/
theorem c3_witness :
    optimizeSubPositions constOps 1 [] wRoom wListener (3/2) true =
      some ((optimizeSubPositions constOps 1 [] wRoom wListener (3/2) true).getD
        dfltConfig) ∧
    (scoreSubConfig constOps [(⟨1/2, 1/2, 0, Wall.front⟩ : GridPos).toPos] []
        wRoom wListener).overall ≤
      ((optimizeSubPositions constOps 1 [] wRoom wListener (3/2) true).getD
        dfltConfig).score.overall :=
  ⟨by decide,
    (c3_optimizer_single constOps [] wRoom wListener (3/2) true
      ((optimizeSubPositions constOps 1 [] wRoom wListener (3/2) true).getD dfltConfig)
      (by decide)).1 ⟨1/2, 1/2, 0, Wall.front⟩ (by decide)⟩

/-- Claim C4 fails on the code: in the non-symmetric two-subwoofer branch,
`pos1` is drawn from `frontHalf` while the inner index `j` starts at `i + 1`
inside the full `positions` array, so the unordered pair of the rear-wall and
left-wall candidates of `c4Room` is never evaluated (in either order), even
though both are distinct grid candidates — while the degenerate pair pairing
the left-wall candidate with itself *is* evaluated. -/
theorem c4_nonsym_pair_missed :
    c4Rear ∈ gridPositions c4Room (3/2) ∧
    c4Left ∈ gridPositions c4Room (3/2) ∧
    c4Rear ≠ c4Left ∧
    (c4Rear, c4Left) ∉ nonSymPairs (gridPositions c4Room (3/2)) c4Room ∧
    (c4Left, c4Rear) ∉ nonSymPairs (gridPositions c4Room (3/2)) c4Room ∧
    (c4Left, c4Left) ∈ nonSymPairs (gridPositions c4Room (3/2)) c4Room := by
  refine ⟨by decide, by decide, by decide, by decide, by decide, by decide⟩

/-- Claim C8: every pair evaluated by the symmetric two-subwoofer branch has
a first position from the candidate grid lying in the front half
(`x < length/2` or a front-wall point), and a second position that is its
mirror: `y₂ = width − y₁`, `x₂ = x₁` for front-wall points and
`x₂ = length − x₁` otherwise, at floor height. -/
theorem c8_symmetric_pairs (room : Room) (res : ℚ) (pr : GridPos × Pos)
    (h : pr ∈ symPairs (gridPositions room res) room) :
    pr.1 ∈ gridPositions room res ∧
    (pr.1.x < room.length / 2 ∨ pr.1.wall = Wall.front) ∧
    pr.2.y = room.width - pr.1.y ∧
    pr.2.x = (if pr.1.wall = Wall.front then pr.1.x else room.length - pr.1.x) ∧
    pr.2.z = 0 := by
  unfold symPairs at h
  obtain ⟨p1, hp1, rfl⟩ := List.mem_map.1 h
  unfold frontHalf at hp1
  rw [List.mem_filter] at hp1
  obtain ⟨hmem, hcond⟩ := hp1
  refine ⟨hmem, ?_, rfl, rfl, rfl⟩
  simpa [Bool.or_eq_true, decide_eq_true_eq] using hcond

/-- Witness for C8: in the 2 ft × 1.2 ft room the single symmetric pair is
the front candidate `(0.5, 0.5)` with its mirror `(0.5, 0.7)`, and indeed
`0.7 = width − 0.5`. -/
theorem c8_witness :
    ((⟨1/2, 1/2, 0, Wall.front⟩ : GridPos), (⟨1/2, 7/10, 0⟩ : Pos)) ∈
      symPairs (gridPositions wRoom (3/2)) wRoom ∧
    (7/10 : ℚ) = wRoom.width - 1/2 :=
  ⟨by decide,
    (c8_symmetric_pairs wRoom (3/2)
      ((⟨1/2, 1/2, 0, Wall.front⟩ : GridPos), (⟨1/2, 7/10, 0⟩ : Pos))
      (by decide)).2.2.1⟩

/-- Claim C10: the prediction/scoring/optimization pipeline, as the component
computes it from its state, is invariant under any change of the wall
openings (they are never passed down); with all openings zero the
modal-analysis evaluator equals the absolute value of the signed evaluator
used by that pipeline; and the modal-analysis evaluator itself *does* depend
on the openings (so the independence is specific to the prediction path). -/
theorem c10_wall_openings_independence (ops : Ops) (room : Room) (listener : Pos)
    (w1 w2 : WallOpenings) (numSubs : ℕ) (sym : Bool) (x y z : ℚ) (mode : Mode) :
    subOptimizerPipeline ops ⟨room, w1, listener, numSubs, sym⟩ =
      subOptimizerPipeline ops ⟨room, w2, listener, numSubs, sym⟩ ∧
    calcPressureAtPosition ops x y z mode room ⟨0, 0, 0, 0⟩ =
      |calcPressureWithSign ops ⟨x, y, z⟩ mode room| ∧
    calcPressureAtPosition constOps 0 0 0 ⟨1, 0, 0, 40, ModeType.axial, 0⟩ c5Room
        ⟨100, 100, 0, 0⟩ ≠
      calcPressureAtPosition constOps 0 0 0 ⟨1, 0, 0, 40, ModeType.axial, 0⟩ c5Room
        ⟨0, 0, 0, 0⟩ := by
  refine ⟨rfl, ?_, by decide⟩
  unfold calcPressureAtPosition calcPressureWithSign
  dsimp only
  split_ifs <;> ring

end Claims

end RoomAcoustics
